import Mathlib

/-!
Verification of the instance slot allocator and GPU-mirrored buffer
("Instance Pool") of the wgpu-tutorial repository, `src/instance.rs`.

The embedding below translates the fields and methods of the Rust
`InstanceBuffer` struct one-to-one:

* `cpu_copy : Vec<RawInstance>`   — the CPU-side mirror (spec: `mirror`);
* `gpu_buffer` / `gpu_buffer_size` — the GPU-side buffer contents and its
  capacity in records (spec: `capacity`); the GPU buffer is modeled by the
  list of records it holds, a `write_buffer` call replaces it;
* `handles : Vec<Weak<usize>>`    — the liveness sequence (spec: `liveness`);
  a weak reference is modeled as `Option Nat`: `some v` while the strong
  owner of the `Rc<usize>` holding `v` is alive (`upgrade` succeeds),
  `none` once the owner was dropped; dropping the owner of the handle that
  was pushed at position `p` is the external event `dropHandle p`;
* `occupied_slots : u64`          — spec: `live_count`;
* `changed : bool`                — spec: `dirty`.

Rust panics (out-of-bounds `Vec` indexing in `set_data` and in the fill
loop of `flush`) are modeled by `Option`/a `Bool` success flag.
-/

/-- Raw per-instance record, `pub type RawInstance = [[f32;4];5]` in the
source: a 4×4 homogeneous transform matrix followed by one RGBA color row.
The pool stores, copies and zero-initializes records without inspecting
them, so entries are modeled with integers (exact equality is all the pool
ever needs); the 5×4 shape is kept in the default value. -/
structure RawInstance where
  rows : List (List Int)
deriving DecidableEq

/-- The zeroed record `RawInstance::default()`: a 5×4 array of zeros. -/
def RawInstance.default : RawInstance :=
  ⟨List.replicate 5 (List.replicate 4 0)⟩

instance : Inhabited RawInstance := ⟨RawInstance.default⟩

/-- State of `InstanceBuffer` (the Instance Pool). -/
structure InstanceBuffer where
  cpu_copy : List RawInstance
  gpu_buffer : List RawInstance
  gpu_buffer_size : Nat
  handles : List (Option Nat)
  occupied_slots : Nat
  changed : Bool
deriving DecidableEq

/-- `InstanceBuffer::create_new_buffer_with_size`: a fresh GPU buffer with
room for `size` records (wgpu buffers are zero-initialized). -/
def create_new_buffer_with_size (size : Nat) : List RawInstance :=
  List.replicate size RawInstance.default

/-- `InstanceBuffer::new`. -/
def InstanceBuffer.new (buffer_size_in_elems : Nat) : InstanceBuffer where
  cpu_copy := []
  handles := []
  gpu_buffer := create_new_buffer_with_size buffer_size_in_elems
  gpu_buffer_size := buffer_size_in_elems
  occupied_slots := 0
  changed := false

/-- `InstanceBuffer::get_occupied_slots`: the indices held by the weak
references that still upgrade, in the order they sit in `handles`. -/
def InstanceBuffer.get_occupied_slots (b : InstanceBuffer) : List Nat :=
  b.handles.filterMap id

/-- Index of the first `None` (dead weak reference) in a handle list, or
its length when every entry upgrades — exactly the loop of
`get_first_free_slot_idx`, whose `free_slot` starts at `handles.len()` and
is overwritten by the first index whose `upgrade()` returns `None`. -/
def firstNoneIdx : List (Option Nat) → Nat
  | [] => 0
  | none :: _ => 0
  | some _ :: rest => firstNoneIdx rest + 1

/-- `InstanceBuffer::get_first_free_slot_idx`. -/
def InstanceBuffer.get_first_free_slot_idx (b : InstanceBuffer) : Nat :=
  firstNoneIdx b.handles

/-- `InstanceBuffer::get_instance_buffer_slot`: returns the chosen slot
index (the payload of the fresh `Rc<usize>`) together with the updated
pool. Note the source pushes the fresh weak reference at the END of
`handles` — it does not overwrite the dead entry at the reused index. -/
def InstanceBuffer.get_instance_buffer_slot (b : InstanceBuffer) :
    Nat × InstanceBuffer :=
  let lowest_free_index := b.get_first_free_slot_idx
  (lowest_free_index,
    { b with
      cpu_copy :=
        if b.cpu_copy.length ≤ lowest_free_index then
          b.cpu_copy ++ [RawInstance.default]
        else b.cpu_copy
      changed := true
      handles := b.handles ++ [some lowest_free_index]
      occupied_slots := b.occupied_slots + 1 })

/-- External event: the strong owner of the `Rc` whose weak reference was
pushed at position `p` of `handles` is dropped, so that weak reference
stops upgrading. -/
def InstanceBuffer.dropHandle (b : InstanceBuffer) (p : Nat) : InstanceBuffer :=
  { b with handles := b.handles.set p none }

/-- `InstanceBuffer::set_data`. The source runs `self.changed = true;`
first and only then `self.cpu_copy[index] = data;`, which panics when
`index >= cpu_copy.len()`; the `Bool` is `false` on that panic, and the
returned state is the state at the moment of the panic. -/
def InstanceBuffer.set_data (b : InstanceBuffer) (index : Nat)
    (data : RawInstance) : Bool × InstanceBuffer :=
  let b1 : InstanceBuffer := { b with changed := true }
  if index < b1.cpu_copy.length then
    (true, { b1 with cpu_copy := b1.cpu_copy.set index data })
  else
    (false, b1)

/-- The fill loop of `flush`:
`for (i, &cpu_buf_idx) in occupied_indices.iter().enumerate()
   { contiguous_instance_buffer[i] = self.cpu_copy[cpu_buf_idx]; }`.
Either indexing panics (modeled as `none`) when out of bounds. -/
def fillContiguous (cpu : List RawInstance) :
    List Nat → Nat → List RawInstance → Option (List RawInstance)
  | [], _, acc => some acc
  | idx :: rest, i, acc =>
    match cpu[idx]? with
    | none => none
    | some r =>
      if i < acc.length then fillContiguous cpu rest (i + 1) (acc.set i r)
      else none

/-- `InstanceBuffer::flush`. Returns `none` if the fill loop panics;
otherwise `some (finalState, written)` where `written` is the payload of
the `queue.write_buffer` call (`none` when no GPU call was issued). -/
def InstanceBuffer.flush (b : InstanceBuffer) :
    Option (InstanceBuffer × Option (List RawInstance)) :=
  if b.changed then
    let b1 : InstanceBuffer :=
      if b.gpu_buffer_size ≤ b.cpu_copy.length then
        { b with
          gpu_buffer_size := b.gpu_buffer_size * 2
          gpu_buffer := create_new_buffer_with_size (b.gpu_buffer_size * 2) }
      else b
    let occupied_indices := b1.get_occupied_slots
    let b2 : InstanceBuffer := { b1 with occupied_slots := occupied_indices.length }
    match fillContiguous b2.cpu_copy occupied_indices 0
        (List.replicate b2.gpu_buffer_size RawInstance.default) with
    | none => none
    | some contiguous =>
      some ({ b2 with gpu_buffer := contiguous, changed := false },
            some contiguous)
  else
    some (b, none)

/-- States of the pool reachable by the operations of `InstanceBuffer`
(plus the external drop of a slot owner). A flush that panics has no
successor state. -/
inductive PoolReachable : InstanceBuffer → Prop where
  | new (n : Nat) : PoolReachable (InstanceBuffer.new n)
  | alloc {b : InstanceBuffer} : PoolReachable b →
      PoolReachable (b.get_instance_buffer_slot).2
  | set {b : InstanceBuffer} (i : Nat) (d : RawInstance) : PoolReachable b →
      PoolReachable (b.set_data i d).2
  | drop {b : InstanceBuffer} (p : Nat) : PoolReachable b →
      PoolReachable (b.dropHandle p)
  | flush {b b' : InstanceBuffer} {w : Option (List RawInstance)} :
      PoolReachable b → b.flush = some (b', w) → PoolReachable b'

/-- Invariant of reachable pool states: the mirror never outgrows the
liveness sequence, and the first dead handle position (if any) lies inside
the mirror; when every handle is live both sequences have equal length. -/
def PoolInv (b : InstanceBuffer) : Prop :=
  b.cpu_copy.length ≤ b.handles.length ∧
  (firstNoneIdx b.handles < b.cpu_copy.length ∨
    (firstNoneIdx b.handles = b.handles.length ∧
     b.handles.length = b.cpu_copy.length))

/-- A record with all 20 entries equal to `n`; distinct `n` give distinct
records (used for the concrete test scenarios of the spec). -/
def mkRecord (n : Int) : RawInstance :=
  ⟨List.replicate 5 (List.replicate 4 n)⟩

/-! Concrete call chains used by the spec's test scenarios: allocate three
slots A, B, C (indices 0, 1, 2), then drop B's owner — B's weak reference
sits at position 1 of `handles` — then allocate again (twice). -/

/-- Fresh pool with initial capacity 4. -/
def demo0 : InstanceBuffer := InstanceBuffer.new 4

/-- After allocating slot A (index 0). -/
def demo1 : InstanceBuffer := demo0.get_instance_buffer_slot.2

/-- After allocating slot B (index 1). -/
def demo2 : InstanceBuffer := demo1.get_instance_buffer_slot.2

/-- After allocating slot C (index 2). -/
def demo3 : InstanceBuffer := demo2.get_instance_buffer_slot.2

/-- After dropping B's owner (the weak reference at position 1 dies). -/
def demoDropped : InstanceBuffer := demo3.dropHandle 1

/-- After the fourth allocation (the one that reuses B's index). -/
def demoReuse1 : InstanceBuffer := demoDropped.get_instance_buffer_slot.2

/-- After a fifth allocation with no intervening flush. -/
def demoReuse2 : InstanceBuffer := demoReuse1.get_instance_buffer_slot.2

/-- Pool of initial capacity 1 after three allocations and no flush. -/
def c4State : InstanceBuffer :=
  (((InstanceBuffer.new 1).get_instance_buffer_slot.2).get_instance_buffer_slot.2).get_instance_buffer_slot.2

/-- Counterexample state for the flush-ordering claim: after the fourth and
fifth allocations both handed out index 1, give slots 0, 1, 2 distinct
records. -/
def c1cexState : InstanceBuffer :=
  (((demoReuse2.set_data 0 (mkRecord 10)).2.set_data 1
    (mkRecord 11)).2.set_data 2 (mkRecord 12)).2

/-- Result state of flushing `c1cexState`. -/
def c1cexAfter : InstanceBuffer :=
  (c1cexState.flush.getD (InstanceBuffer.new 0, none)).1

/-- The spec's compaction scenario: three slots, B's owner dropped, the two
survivors given distinct records. -/
def c1witState : InstanceBuffer :=
  ((demoDropped.set_data 0 (mkRecord 21)).2.set_data 2 (mkRecord 22)).2

/-- Result state of flushing `c1witState`. -/
def c1witAfter : InstanceBuffer :=
  (c1witState.flush.getD (InstanceBuffer.new 0, none)).1

/-- The packed array uploaded when flushing `c1witState`: the two
survivors' records ascending by original index, then zeroed records. -/
def c1witOut : List RawInstance :=
  [mkRecord 21, mkRecord 22, RawInstance.default, RawInstance.default]

/-- A dirty single-slot pool (capacity 4, one allocation). -/
def c7Dirty : InstanceBuffer :=
  (InstanceBuffer.new 4).get_instance_buffer_slot.2

/-- The pool state after the first flush of `c7Dirty`. -/
def c7Once : InstanceBuffer :=
  (c7Dirty.flush.getD (InstanceBuffer.new 0, none)).1

/-- The state after the spec's slot-reuse prefix is reachable. -/
theorem demoDropped_reachable : PoolReachable demoDropped :=
  PoolReachable.drop 1
    (PoolReachable.alloc (PoolReachable.alloc (PoolReachable.alloc
      (PoolReachable.new 4))))

/-! Basic facts about `firstNoneIdx`, the loop of
`get_first_free_slot_idx`. -/

theorem firstNoneIdx_le_length (l : List (Option Nat)) :
    firstNoneIdx l ≤ l.length := by
  induction l with
  | nil => simp [firstNoneIdx]
  | cons h t ih =>
    cases h with
    | none => simp [firstNoneIdx]
    | some v => simpa [firstNoneIdx] using ih

theorem firstNoneIdx_lt_of_getElem (l : List (Option Nat)) (p : Nat)
    (h : l[p]? = some none) : firstNoneIdx l < l.length := by
  induction l generalizing p with
  | nil => simp at h
  | cons hd t ih =>
    cases hd with
    | none => simp [firstNoneIdx]
    | some v =>
      cases p with
      | zero => simp at h
      | succ q =>
        simp only [List.getElem?_cons_succ] at h
        simpa [firstNoneIdx] using ih q h

theorem getElem_firstNoneIdx (l : List (Option Nat))
    (h : firstNoneIdx l < l.length) : l[firstNoneIdx l]? = some none := by
  induction l with
  | nil => simp at h
  | cons hd t ih =>
    cases hd with
    | none => simp [firstNoneIdx]
    | some v =>
      simp only [firstNoneIdx, List.length_cons, Nat.add_lt_add_iff_right] at h
      simpa [firstNoneIdx] using ih h

theorem getElem_lt_firstNoneIdx (l : List (Option Nat)) (q : Nat)
    (h : q < firstNoneIdx l) : l[q]? ≠ some none := by
  induction l generalizing q with
  | nil => simp [firstNoneIdx] at h
  | cons hd t ih =>
    cases hd with
    | none => simp [firstNoneIdx] at h
    | some v =>
      cases q with
      | zero => simp
      | succ q' =>
        simp only [firstNoneIdx, Nat.add_lt_add_iff_right] at h
        simpa using ih q' h

theorem firstNoneIdx_eq_length (l : List (Option Nat))
    (h : ∀ p : Nat, l[p]? ≠ some none) : firstNoneIdx l = l.length := by
  induction l with
  | nil => simp [firstNoneIdx]
  | cons hd t ih =>
    cases hd with
    | none => exact absurd (by simp) (h 0)
    | some v =>
      have ht : ∀ p : Nat, t[p]? ≠ some none := by
        intro p hp
        exact h (p + 1) (by simpa using hp)
      simp [firstNoneIdx, ih ht]

theorem firstNoneIdx_append_of_lt (l l₂ : List (Option Nat))
    (h : firstNoneIdx l < l.length) :
    firstNoneIdx (l ++ l₂) = firstNoneIdx l := by
  induction l with
  | nil => simp at h
  | cons hd t ih =>
    cases hd with
    | none => simp [firstNoneIdx]
    | some v =>
      simp only [firstNoneIdx, List.length_cons, Nat.add_lt_add_iff_right] at h
      simp [firstNoneIdx, ih h]

theorem firstNoneIdx_append_of_eq (l l₂ : List (Option Nat))
    (h : firstNoneIdx l = l.length) :
    firstNoneIdx (l ++ l₂) = l.length + firstNoneIdx l₂ := by
  induction l with
  | nil => simp [firstNoneIdx]
  | cons hd t ih =>
    cases hd with
    | none => simp [firstNoneIdx] at h
    | some v =>
      simp only [firstNoneIdx, List.length_cons, Nat.add_right_cancel_iff] at h
      simp [firstNoneIdx, ih h]
      omega

theorem firstNoneIdx_set_le (l : List (Option Nat)) (p : Nat) :
    firstNoneIdx (l.set p none) ≤ firstNoneIdx l := by
  induction l generalizing p with
  | nil => simp
  | cons hd t ih =>
    cases p with
    | zero => simp [List.set, firstNoneIdx]
    | succ q =>
      cases hd with
      | none => simp [List.set, firstNoneIdx]
      | some v =>
        simpa [List.set, firstNoneIdx] using ih q

theorem firstNoneIdx_set_le_pos (l : List (Option Nat)) (p : Nat)
    (h : p < l.length) : firstNoneIdx (l.set p none) ≤ p := by
  induction l generalizing p with
  | nil => simp at h
  | cons hd t ih =>
    cases p with
    | zero => simp [List.set, firstNoneIdx]
    | succ q =>
      cases hd with
      | none => simp [List.set, firstNoneIdx]
      | some v =>
        simp only [List.length_cons, Nat.add_lt_add_iff_right] at h
        simpa [List.set, firstNoneIdx] using ih q h

/-! Preservation of `PoolInv` along every operation. -/

theorem poolInv_new (n : Nat) : PoolInv (InstanceBuffer.new n) := by
  constructor
  · simp [InstanceBuffer.new]
  · right
    simp [InstanceBuffer.new, firstNoneIdx]

theorem poolInv_alloc (b : InstanceBuffer) (hb : PoolInv b) :
    PoolInv (b.get_instance_buffer_slot).2 := by
  obtain ⟨hlen, hdisj⟩ := hb
  unfold PoolInv
  simp only [InstanceBuffer.get_instance_buffer_slot,
    InstanceBuffer.get_first_free_slot_idx]
  rcases hdisj with hlt | ⟨heq, hLM⟩
  · have hnotle : ¬ b.cpu_copy.length ≤ firstNoneIdx b.handles :=
      Nat.not_le.mpr hlt
    have hfl : firstNoneIdx b.handles < b.handles.length :=
      Nat.lt_of_lt_of_le hlt hlen
    simp only [if_neg hnotle, List.length_append, List.length_cons,
      List.length_nil, firstNoneIdx_append_of_lt _ _ hfl]
    exact ⟨by omega, Or.inl hlt⟩
  · have hle : b.cpu_copy.length ≤ firstNoneIdx b.handles := by omega
    simp only [if_pos hle, List.length_append, List.length_cons,
      List.length_nil, firstNoneIdx_append_of_eq _ _ heq, firstNoneIdx]
    exact ⟨by omega, Or.inr ⟨trivial, by omega⟩⟩

theorem poolInv_set_data (b : InstanceBuffer) (i : Nat) (d : RawInstance)
    (hb : PoolInv b) : PoolInv (b.set_data i d).2 := by
  obtain ⟨hlen, hdisj⟩ := hb
  simp only [InstanceBuffer.set_data]
  by_cases h : i < b.cpu_copy.length
  · simp only [h, if_pos]
    exact ⟨by simpa using hlen, by simpa using hdisj⟩
  · simp only [h, if_neg, not_false_iff]
    exact ⟨hlen, hdisj⟩

theorem poolInv_drop (b : InstanceBuffer) (p : Nat) (hb : PoolInv b) :
    PoolInv (b.dropHandle p) := by
  obtain ⟨hlen, hdisj⟩ := hb
  unfold PoolInv InstanceBuffer.dropHandle
  simp only [List.length_set]
  by_cases hp : p < b.handles.length
  · refine ⟨hlen, Or.inl ?_⟩
    show firstNoneIdx (b.handles.set p none) < b.cpu_copy.length
    rcases hdisj with hlt | ⟨_, hLM⟩
    · exact Nat.lt_of_le_of_lt (firstNoneIdx_set_le b.handles p) hlt
    · have h2 := firstNoneIdx_set_le_pos b.handles p hp
      omega
  · have hid : b.handles.set p none = b.handles :=
      List.set_eq_of_length_le (by omega)
    rw [hid]
    exact ⟨hlen, hdisj⟩

theorem flush_preserves_cpu_handles (b b' : InstanceBuffer)
    (w : Option (List RawInstance)) (hf : b.flush = some (b', w)) :
    b'.cpu_copy = b.cpu_copy ∧ b'.handles = b.handles := by
  unfold InstanceBuffer.flush at hf
  by_cases hc : b.changed = true
  · simp only [hc, if_pos] at hf
    split at hf
    · exact absurd hf (by simp)
    · rename_i heq
      obtain ⟨hb', _⟩ := Prod.mk.injEq .. ▸ Option.some.injEq .. ▸ hf
      subst hb'
      split <;> simp
  · simp only [Bool.not_eq_true] at hc
    simp only [hc, Bool.false_eq_true, if_neg, not_false_iff,
      Option.some.injEq, Prod.mk.injEq] at hf
    obtain ⟨hb', _⟩ := hf
    subst hb'
    exact ⟨rfl, rfl⟩

theorem poolInv_flush (b b' : InstanceBuffer) (w : Option (List RawInstance))
    (hf : b.flush = some (b', w)) (hb : PoolInv b) : PoolInv b' := by
  obtain ⟨hcpu, hhandles⟩ := flush_preserves_cpu_handles b b' w hf
  unfold PoolInv
  rw [hcpu, hhandles]
  exact hb

/-- Every reachable pool state satisfies the invariant. -/
theorem poolReachable_inv {b : InstanceBuffer} (hr : PoolReachable b) :
    PoolInv b := by
  induction hr with
  | new n => exact poolInv_new n
  | alloc _ ih => exact poolInv_alloc _ ih
  | set i d _ ih => exact poolInv_set_data _ i d ih
  | drop p _ ih => exact poolInv_drop _ p ih
  | flush _ hf ih => exact poolInv_flush _ _ _ hf ih

/-! Characterization of the fill loop of `flush`. -/

theorem fillContiguous_spec (cpu : List RawInstance) (occ : List Nat)
    (i : Nat) (acc out : List RawInstance)
    (h : fillContiguous cpu occ i acc = some out) :
    out.length = acc.length ∧
    (∀ k : Nat, k < occ.length → out[i + k]? = cpu[occ.getD k 0]?) ∧
    (∀ j : Nat, j < i ∨ i + occ.length ≤ j → out[j]? = acc[j]?) := by
  induction occ generalizing i acc with
  | nil =>
    simp only [fillContiguous, Option.some.injEq] at h
    subst h
    exact ⟨rfl, by simp, fun j _ => rfl⟩
  | cons idx rest ih =>
    simp only [fillContiguous] at h
    split at h
    · exact absurd h (by simp)
    · rename_i r hidx
      split at h
      case isFalse => exact absurd h (by simp)
      rename_i hi
      obtain ⟨hlen, hmid, hout⟩ := ih (i + 1) (acc.set i r) h
      refine ⟨by simpa using hlen, ?_, ?_⟩
      · intro k hk
        cases k with
        | zero =>
          have hii : out[i]? = (acc.set i r)[i]? := hout i (Or.inl (by omega))
          rw [Nat.add_zero, hii, List.getElem?_set_self hi]
          rw [List.getD_cons_zero]
          exact hidx.symm
        | succ k' =>
          have hmk := hmid k' (by simpa using hk)
          have harith : i + (k' + 1) = i + 1 + k' := by omega
          rw [harith, List.getD_cons_succ]
          exact hmk
      · intro j hj
        have hne : j ≠ i := by
          rcases hj with hj | hj
          · omega
          · simp only [List.length_cons] at hj
            omega
        have hjj : out[j]? = (acc.set i r)[j]? := by
          refine hout j ?_
          rcases hj with hj | hj
          · exact Or.inl (by omega)
          · right
            simp only [List.length_cons] at hj
            omega
        rw [hjj, List.getElem?_set_ne (by omega)]

/-- Unfolding a dirty flush that issued a GPU write: the written array is
the fill-loop result over the (possibly doubled) capacity, and the final
state keeps the mirror and liveness sequences, caches the live count and
clears the dirty flag. -/
theorem flush_dirty_destruct (b b' : InstanceBuffer) (w : List RawInstance)
    (hf : b.flush = some (b', some w)) :
    fillContiguous b.cpu_copy (b.handles.filterMap id) 0
      (List.replicate b'.gpu_buffer_size RawInstance.default) = some w ∧
    b'.occupied_slots = (b.handles.filterMap id).length ∧
    b'.cpu_copy = b.cpu_copy ∧ b'.handles = b.handles ∧ b'.changed = false := by
  unfold InstanceBuffer.flush at hf
  by_cases hc : b.changed = true
  · simp only [hc, if_true, InstanceBuffer.get_occupied_slots] at hf
    by_cases hgs : b.gpu_buffer_size ≤ b.cpu_copy.length
    · simp only [hgs, if_true] at hf
      split at hf
      · exact absurd hf (by simp)
      · rename_i contiguous hfill
        simp only [Option.some.injEq, Prod.mk.injEq] at hf
        obtain ⟨hb', hw⟩ := hf
        subst hw
        subst hb'
        exact ⟨hfill, rfl, rfl, rfl, rfl⟩
    · simp only [hgs, if_false] at hf
      split at hf
      · exact absurd hf (by simp)
      · rename_i contiguous hfill
        simp only [Option.some.injEq, Prod.mk.injEq] at hf
        obtain ⟨hb', hw⟩ := hf
        subst hw
        subst hb'
        exact ⟨hfill, rfl, rfl, rfl, rfl⟩
  · simp only [Bool.not_eq_true] at hc
    simp [hc] at hf

/-! The claims. -/

/-- C2 (code bug witness): the spec invariant `len(mirror) == len(liveness)`
fails on the code. After allocating slots 0, 1, 2, dropping the owner of
slot 1 and allocating again, `get_instance_buffer_slot` reuses index 1 (no
record is pushed into `cpu_copy`) but still pushes the fresh weak
reference at the end of `handles`, so the mirror has 3 entries while the
liveness sequence has 4. -/
theorem C2_mirror_liveness_lengths_diverge :
    demoReuse1.cpu_copy.length = 3 ∧ demoReuse1.handles.length = 4 := by
  constructor <;> rfl

/-- C5 (code bug witness): reusing index 1 does not store the fresh weak
reference at index 1 — `handles[1]` stays dead (`none`) and the new weak
reference sits at position 3 — so "slot index `i` is live iff
`liveness[i]` resolves" fails for the reused slot. -/
theorem C5_weak_not_stored_at_reused_index :
    demoDropped.get_instance_buffer_slot.1 = 1 ∧
    demoReuse1.handles = [some 0, none, some 2, some 1] := by
  constructor <;> rfl

/-- C9: after allocating slots 0, 1, 2, dropping the owner of slot 1 and
allocating twice with no intervening flush, both new allocations receive
index 1, and two simultaneously-live handles (positions 3 and 4 of
`handles`) carry the same index 1 — because the dead weak entry at the
hole index is never overwritten and each reuse appends its weak reference
at the end. -/
theorem C9_duplicate_slot_indices :
    demoDropped.get_instance_buffer_slot.1 = 1 ∧
    demoReuse1.get_instance_buffer_slot.1 = 1 ∧
    demoReuse2.handles = [some 0, none, some 2, some 1, some 1] := by
  refine ⟨rfl, rfl, rfl⟩

/-- C4 (code bug witness): `flush` doubles the capacity only once, not
repeatedly. Starting from capacity 1, three allocations make
`len(mirror) = 3 > 2 = capacity * 2`, and the flush panics (index out of
bounds) in the fill loop instead of writing with `capacity >= len(mirror)`. -/
theorem C4_flush_single_doubling_panics :
    c4State.gpu_buffer_size = 1 ∧ c4State.cpu_copy.length = 3 ∧
    c4State.changed = true ∧ c4State.flush = none := by
  refine ⟨rfl, rfl, rfl, ?_⟩
  decide

/-- C6: `set_data` fails (the mirror indexing panics) exactly when
`index >= len(mirror)`; when `index < len(mirror)` it overwrites
`mirror[index]` with the given record, leaves every other mirror entry
unchanged, and sets the dirty flag. -/
theorem C6_set_data_bounds (b : InstanceBuffer) (i : Nat) (d : RawInstance) :
    ((b.set_data i d).1 = false ↔ b.cpu_copy.length ≤ i) ∧
    (i < b.cpu_copy.length →
      (b.set_data i d).2.cpu_copy[i]? = some d ∧
      (∀ j : Nat, j ≠ i → (b.set_data i d).2.cpu_copy[j]? = b.cpu_copy[j]?) ∧
      (b.set_data i d).2.changed = true) := by
  simp only [InstanceBuffer.set_data]
  by_cases h : i < b.cpu_copy.length
  · rw [if_pos h]
    constructor
    · simp [Nat.not_le.mpr h]
    · intro _
      refine ⟨List.getElem?_set_self (by simpa using h), ?_, rfl⟩
      intro j hj
      exact List.getElem?_set_ne (by omega)
  · rw [if_neg h]
    constructor
    · simp [Nat.not_lt.mp h]
    · intro hc
      exact absurd hc h

/-- C6 witness: in the three-slot pool, writing a record at index 1
succeeds and lands at mirror position 1 with the dirty flag set. -/
theorem C6_set_data_bounds_witness :
    1 < demo3.cpu_copy.length ∧
    ((demo3.set_data 1 (mkRecord 5)).2.cpu_copy[1]? = some (mkRecord 5) ∧
     (∀ j : Nat, j ≠ 1 →
       (demo3.set_data 1 (mkRecord 5)).2.cpu_copy[j]? = demo3.cpu_copy[j]?) ∧
     (demo3.set_data 1 (mkRecord 5)).2.changed = true) :=
  ⟨by decide, (C6_set_data_bounds demo3 1 (mkRecord 5)).2 (by decide)⟩

/-- C7: flushing a clean pool (`dirty == false`) returns the pool
unchanged — every field identical — and issues no GPU write. -/
theorem C7_flush_clean_is_noop (b : InstanceBuffer) (h : b.changed = false) :
    b.flush = some (b, none) := by
  unfold InstanceBuffer.flush
  simp [h]

/-- C7 witness: after a first flush of a dirty pool, the pool is clean and
a second flush is a no-op with no GPU write. -/
theorem C7_flush_clean_is_noop_witness :
    c7Once.changed = false ∧ c7Once.flush = some (c7Once, none) :=
  ⟨by decide, C7_flush_clean_is_noop c7Once (by decide)⟩

/-- C8: the dirty flag is `false` right after `new`; both mutations
(`get_instance_buffer_slot` and `set_data`, even a failing one) set it;
dropping a slot owner never changes it; and a successful flush leaves the
pool clean (the only way the flag goes back to `false`). -/
theorem C8_dirty_flag_protocol :
    (∀ n : Nat, (InstanceBuffer.new n).changed = false) ∧
    (∀ b : InstanceBuffer, (b.get_instance_buffer_slot).2.changed = true) ∧
    (∀ (b : InstanceBuffer) (i : Nat) (d : RawInstance),
      (b.set_data i d).2.changed = true) ∧
    (∀ (b : InstanceBuffer) (p : Nat), (b.dropHandle p).changed = b.changed) ∧
    (∀ (b b' : InstanceBuffer) (w : Option (List RawInstance)),
      b.flush = some (b', w) → b'.changed = false) := by
  refine ⟨fun n => rfl, fun b => rfl, ?_, fun b p => rfl, ?_⟩
  · intro b i d
    unfold InstanceBuffer.set_data
    by_cases h : i < b.cpu_copy.length
    · simp only [h, if_pos]
    · simp only [h, if_neg, not_false_iff]
  · intro b b' w hf
    unfold InstanceBuffer.flush at hf
    by_cases hc : b.changed = true
    · simp only [hc, if_true] at hf
      split at hf
      · exact absurd hf (by simp)
      · simp only [Option.some.injEq, Prod.mk.injEq] at hf
        obtain ⟨hb', _⟩ := hf
        subst hb'
        rfl
    · simp only [Bool.not_eq_true] at hc
      simp only [hc, Bool.false_eq_true, if_false, Option.some.injEq,
        Prod.mk.injEq] at hf
      obtain ⟨hb', _⟩ := hf
      subst hb'
      exact hc

/-- C8 witness: the protocol at concrete states — a fresh pool is clean,
an allocation and a failing `set_data` dirty it, a drop preserves the
flag, and the flush of the dirty one-slot pool clears it. -/
theorem C8_dirty_flag_protocol_witness :
    (InstanceBuffer.new 4).changed = false ∧
    c7Dirty.changed = true ∧
    c7Dirty.flush = some (c7Once, some (List.replicate 4 RawInstance.default)) ∧
    c7Once.changed = false :=
  ⟨C8_dirty_flag_protocol.1 4, by decide, by decide,
    C8_dirty_flag_protocol.2.2.2.2 c7Dirty c7Once
      (some (List.replicate 4 RawInstance.default)) (by decide)⟩

/-- C10: a `set_data` call with `index >= len(mirror)` fails, but the
dirty flag has already been mutated to `true` by the time the bounds
violation is detected, while the mirror itself is untouched — the failing
call is not atomic with respect to pool state. -/
theorem C10_failing_set_data_dirties (b : InstanceBuffer) (i : Nat)
    (d : RawInstance) (h : b.cpu_copy.length ≤ i) :
    (b.set_data i d).1 = false ∧
    (b.set_data i d).2.changed = true ∧
    (b.set_data i d).2.cpu_copy = b.cpu_copy := by
  simp only [InstanceBuffer.set_data]
  have h2 : ¬ i < b.cpu_copy.length := Nat.not_lt.mpr h
  rw [if_neg h2]
  exact ⟨rfl, rfl, rfl⟩

/-- C10 witness: writing at index 3 of the three-slot pool fails yet
leaves the pool dirty with the mirror unchanged. -/
theorem C10_failing_set_data_dirties_witness :
    demo3.cpu_copy.length ≤ 3 ∧
    ((demo3.set_data 3 (mkRecord 9)).1 = false ∧
     (demo3.set_data 3 (mkRecord 9)).2.changed = true ∧
     (demo3.set_data 3 (mkRecord 9)).2.cpu_copy = demo3.cpu_copy) :=
  ⟨by decide, C10_failing_set_data_dirties demo3 3 (mkRecord 9) (by decide)⟩

/-- C3: on every reachable pool state, `get_instance_buffer_slot` chooses
the lowest index whose liveness entry no longer resolves (when such a hole
exists, the mirror is left alone); a zeroed record is appended to the
mirror exactly when no hole exists, and then the chosen index equals
`len(liveness)`. -/
theorem C3_alloc_lowest_free_index (b : InstanceBuffer)
    (hr : PoolReachable b) :
    ((∃ p : Nat, b.handles[p]? = some none) →
      b.handles[(b.get_instance_buffer_slot).1]? = some none ∧
      (∀ q : Nat, q < (b.get_instance_buffer_slot).1 →
        b.handles[q]? ≠ some none) ∧
      (b.get_instance_buffer_slot).2.cpu_copy = b.cpu_copy) ∧
    ((∀ p : Nat, b.handles[p]? ≠ some none) →
      (b.get_instance_buffer_slot).1 = b.handles.length ∧
      (b.get_instance_buffer_slot).2.cpu_copy =
        b.cpu_copy ++ [RawInstance.default]) := by
  obtain ⟨hlen, hdisj⟩ := poolReachable_inv hr
  constructor
  · rintro ⟨p, hp⟩
    have hlt : firstNoneIdx b.handles < b.handles.length :=
      firstNoneIdx_lt_of_getElem b.handles p hp
    have hfM : firstNoneIdx b.handles < b.cpu_copy.length := by
      rcases hdisj with h | ⟨h1, _⟩
      · exact h
      · omega
    refine ⟨?_, ?_, ?_⟩
    · exact getElem_firstNoneIdx b.handles hlt
    · intro q hq
      exact getElem_lt_firstNoneIdx b.handles q hq
    · simp only [InstanceBuffer.get_instance_buffer_slot,
        InstanceBuffer.get_first_free_slot_idx]
      rw [if_neg (Nat.not_le.mpr hfM)]
  · intro hnone
    have heq : firstNoneIdx b.handles = b.handles.length :=
      firstNoneIdx_eq_length b.handles hnone
    have hLM : b.handles.length = b.cpu_copy.length := by
      rcases hdisj with h | ⟨_, h2⟩
      · omega
      · exact h2
    constructor
    · exact heq
    · simp only [InstanceBuffer.get_instance_buffer_slot,
        InstanceBuffer.get_first_free_slot_idx]
      rw [if_pos (by omega)]

/-- C3 witness: at the reachable state with slots 0, 1, 2 where B's owner
(index 1) was dropped, the next allocation receives index 1 — the lowest
dead liveness entry — and pushes no new mirror record. -/
theorem C3_alloc_lowest_free_index_witness :
    demoDropped.get_instance_buffer_slot.1 = 1 ∧
    (((∃ p : Nat, demoDropped.handles[p]? = some none) →
      demoDropped.handles[(demoDropped.get_instance_buffer_slot).1]? = some none ∧
      (∀ q : Nat, q < (demoDropped.get_instance_buffer_slot).1 →
        demoDropped.handles[q]? ≠ some none) ∧
      (demoDropped.get_instance_buffer_slot).2.cpu_copy = demoDropped.cpu_copy) ∧
    ((∀ p : Nat, demoDropped.handles[p]? ≠ some none) →
      (demoDropped.get_instance_buffer_slot).1 = demoDropped.handles.length ∧
      (demoDropped.get_instance_buffer_slot).2.cpu_copy =
        demoDropped.cpu_copy ++ [RawInstance.default])) :=
  ⟨by decide, C3_alloc_lowest_free_index demoDropped demoDropped_reachable⟩

/-- C1 counterexample: in the reachable state where index 1 was handed out
twice (slots 0, 1, 2 holding distinct records 10, 11, 12), flush packs the
mirror records in the order of the liveness entries — slot indices
`[0, 2, 1, 1]` — not in ascending slot order `[0, 1, 2]`: position 1 of
the packed array holds slot 2's record instead of slot 1's, slot 1's
record appears twice, and `live_count` becomes 4 although only three
distinct slot indices are live. -/
theorem C1_flush_ascending_counterexample :
    c1cexState.changed = true ∧
    c1cexState.get_occupied_slots = [0, 2, 1, 1] ∧
    c1cexState.flush = some (c1cexAfter,
      some [mkRecord 10, mkRecord 12, mkRecord 11, mkRecord 11]) ∧
    c1cexAfter.occupied_slots = 4 ∧
    mkRecord 11 ≠ mkRecord 12 := by
  refine ⟨rfl, rfl, by decide, rfl, by decide⟩

/-- C1 (amended): a dirty flush that issues a GPU write builds a packed
array of length equal to the (possibly doubled) capacity whose positions
`0..live_count` hold the mirror records at the indices carried by the
resolving liveness entries, in the order those entries appear in the
liveness sequence (ascending slot order only when no index was reused);
the remaining positions hold the zeroed record; and afterwards
`live_count` equals the number of resolving liveness entries. -/
theorem C1_flush_packs_in_liveness_order (b b' : InstanceBuffer)
    (w : List RawInstance) (_hd : b.changed = true)
    (hf : b.flush = some (b', some w)) :
    w.length = b'.gpu_buffer_size ∧
    (∀ k : Nat, k < b.get_occupied_slots.length →
      w[k]? = b.cpu_copy[b.get_occupied_slots.getD k 0]?) ∧
    (∀ k : Nat, b.get_occupied_slots.length ≤ k → k < w.length →
      w[k]? = some RawInstance.default) ∧
    b'.occupied_slots = b.get_occupied_slots.length := by
  obtain ⟨hfill, hocc, _, _, _⟩ := flush_dirty_destruct b b' w hf
  obtain ⟨hlen, hmid, hrest⟩ :=
    fillContiguous_spec b.cpu_copy (b.handles.filterMap id) 0
      (List.replicate b'.gpu_buffer_size RawInstance.default) w hfill
  rw [List.length_replicate] at hlen
  refine ⟨hlen, ?_, ?_, by simpa [InstanceBuffer.get_occupied_slots] using hocc⟩
  · intro k hk
    have hmk := hmid k (by simpa [InstanceBuffer.get_occupied_slots] using hk)
    simpa [InstanceBuffer.get_occupied_slots] using hmk
  · intro k h1 h2
    have hrk := hrest k
      (Or.inr (by simpa [InstanceBuffer.get_occupied_slots] using h1))
    rw [hrk, List.getElem?_replicate_of_lt (by omega)]

/-- C1 witness, the spec's compaction scenario: three slots, the middle
owner dropped, records 21 and 22 on the survivors; the flush writes
`[21-record, 22-record, zero, zero]` — survivors ascending by original
index at positions 0 and 1, zeroed records above — and `live_count` is 2
(`c1witState.get_occupied_slots = [0, 2]`). -/
theorem C1_flush_packs_in_liveness_order_witness :
    c1witState.changed = true ∧
    c1witState.flush = some (c1witAfter, some c1witOut) ∧
    c1witState.get_occupied_slots = [0, 2] ∧
    (c1witOut.length = c1witAfter.gpu_buffer_size ∧
     (∀ k : Nat, k < c1witState.get_occupied_slots.length →
       c1witOut[k]? = c1witState.cpu_copy[c1witState.get_occupied_slots.getD k 0]?) ∧
     (∀ k : Nat, c1witState.get_occupied_slots.length ≤ k →
       k < c1witOut.length → c1witOut[k]? = some RawInstance.default) ∧
     c1witAfter.occupied_slots = c1witState.get_occupied_slots.length) :=
  ⟨by decide, by decide, by decide,
    C1_flush_packs_in_liveness_order c1witState c1witAfter c1witOut
      (by decide) (by decide)⟩
